import Mathlib

/-!
Shallow embedding of the LED-pattern decoding core of the cff3000 crate
(src/lib.rs, function CFF3000::state): the 50 ms event-merge pass, the
carried-forward state-reconstruction pass, and the validating state
classifier, together with theorems settling the spec-level claims.

Rust u8 and u64 values are modelled as Nat; u8 bitwise complement is
xor with 255, and u64 subtraction (which wraps in release builds) is
modelled explicitly modulo 2 ^ 64.  A Rust panic (out-of-bounds index)
is modelled as Option.none.
-/

namespace cff3000

/-- An LED event, as the Rust struct Event: mask marks the channels
covered (bit 0 = red, bit 1 = green), timestamp is in milliseconds,
state holds the LED levels. -/
structure Event where
  mask : Nat
  timestamp : Nat
  state : Nat
deriving DecidableEq, Inhabited

/-- The four device states of the Rust enum CFF3000State. -/
inductive CFF3000State where
  | Locked
  | Unlocked
  | Manual
  | OutOfRange
deriving DecidableEq, Inhabited

/-- The decode failures returned by CFF3000::state through std::io::Error,
one constructor per distinct error site. -/
inductive DecodeError where
  | insufficientEvents
  | invalidStart
  | invalidEnd
  | invalidState
  | invalidSubstateManual
  | invalidSubstateOutOfRange
deriving DecidableEq, Inhabited

/-- Rust bitwise complement on u8 values: flip the low 8 bits. -/
def bnot8 (x : Nat) : Nat := x ^^^ 255

/-- Rust wrapping subtraction on u64 (release-build semantics of a - b
for b ≤ 2 ^ 64). -/
def wsub64 (a b : Nat) : Nat := (2 ^ 64 + a - b) % 2 ^ 64

/-- One merge step of the 50 ms combine loop (lib.rs lines 204-207):
fold the raw event e into the output entry c currently being built. -/
def mergeOne (c e : Event) : Event :=
  { mask := c.mask ||| e.mask
    timestamp := c.timestamp
    state := (c.state ||| (e.state &&& e.mask)) &&& (e.state ||| bnot8 e.mask) }

/-- The combine loop (lib.rs lines 202-211).  prev is the previous raw
event, c the output entry currently being built (the last element of
simple_eventlog), and the list argument holds the remaining raw events. -/
def mergeRun (prev c : Event) : List Event → List Event
  | [] => [c]
  | e :: rest =>
    if prev.timestamp > wsub64 e.timestamp 50 then
      mergeRun e (mergeOne c e) rest
    else
      c :: mergeRun e e rest

/-- First coalescing pass (lib.rs lines 199-211).  The Rust code indexes
eventlog[0] without an emptiness guard, so an empty input panics,
modelled as none. -/
def mergePass : List Event → Option (List Event)
  | [] => none
  | e :: rest => some (mergeRun e e rest)

/-- Update of the running known state in the reconstruction loop
(lib.rs lines 217-218). -/
def updState (s : Nat) (e : Event) : Nat :=
  (s &&& bnot8 e.mask) ||| (e.state &&& e.mask)

/-- Body of the reconstruction loop (lib.rs lines 216-227), carrying the
running known state s and the timestamp offset. -/
def reconRun (s offset : Nat) : List Event → List Event
  | [] => []
  | e :: rest =>
    let s2 := updState s e
    let st := if e.mask ≠ 3 then (e.state &&& e.mask) ||| s2 else e.state
    { mask := 3, timestamp := wsub64 e.timestamp offset, state := st }
      :: reconRun s2 offset rest

/-- Second coalescing pass (lib.rs lines 213-227): fill unobserved
channels from the carried-forward state, force every mask to 0b11, and
make timestamps relative to the first entry. -/
def reconstruct (l : List Event) : List Event :=
  reconRun 0 (l.getD 0 default).timestamp l

/-- Both coalescing passes (lib.rs lines 199-227); none models the
out-of-bounds panic on an empty event log. -/
def coalesce (raw : List Event) : Option (List Event) :=
  (mergePass raw).map reconstruct

/-- The running known state after the reconstruction loop has processed
the first i + 1 entries of l. -/
def knownAfter (l : List Event) (i : Nat) : Nat :=
  (l.take (i + 1)).foldl updState 0

/-- Mode selection on simple_eventlog[1].state for sequences longer than
three entries (lib.rs lines 250-255). -/
def selectMode : Nat → Except DecodeError CFF3000State
  | 0 => .ok .Manual
  | 1 => .ok .OutOfRange
  | 2 => .ok .OutOfRange
  | _ => .error .invalidState

/-- The substate walk (lib.rs lines 257-270), checking k entries of l
against their predecessors starting at index i; manual selects which of
the two per-entry checks runs. -/
def subCheck (l : List Event) (manual : Bool) : Nat → Nat → Except DecodeError Unit
  | 0, _ => .ok ()
  | k + 1, i =>
    let prev := l.getD (i - 1) default
    let cur := l.getD i default
    if manual then
      if prev.state &&& 3 ≠ bnot8 cur.state &&& 3 then
        .error .invalidSubstateManual
      else subCheck l manual k (i + 1)
    else
      if cur.state = 0 ∨ cur.state = 3 then
        .error .invalidSubstateOutOfRange
      else if prev.state &&& 3 = bnot8 prev.state &&& 3 then
        .error .invalidSubstateOutOfRange
      else subCheck l manual k (i + 1)

/-- Validation and classification of the coalesced event log
(lib.rs lines 229-273). -/
def classify (l : List Event) : Except DecodeError CFF3000State :=
  if l.length ≤ 2 then .error .insufficientEvents
  else if (l.getD 0 default).state ≠ 3 then .error .invalidStart
  else if (l.getD (l.length - 1) default).state ≠ 0 then .error .invalidEnd
  else if l.length = 3 then
    if (l.getD 1 default).state = 2 then .ok .Locked
    else if (l.getD 1 default).state = 1 then .ok .Unlocked
    else .error .invalidState
  else
    match selectMode (l.getD 1 default).state with
    | .error e => .error e
    | .ok m =>
      match subCheck l (m == CFF3000State.Manual) (l.length - 3) 2 with
      | .error e => .error e
      | .ok _ => .ok m

/-- Raw event pushed for an edge on the red line (lib.rs lines 187-191). -/
def redEvent (rising : Bool) (t : Nat) : Event :=
  { mask := 1, timestamp := t, state := if rising then 1 else 0 }

/-- Raw event pushed for an edge on the green line (lib.rs lines 192-196). -/
def greenEvent (rising : Bool) (t : Nat) : Event :=
  { mask := 2, timestamp := t, state := if rising then 2 else 0 }

/-- The pure core of CFF3000::state (lib.rs lines 199-273): coalesce the
captured raw events, then validate and classify; none models a panic. -/
def state (raw : List Event) : Option (Except DecodeError CFF3000State) :=
  (coalesce raw).map classify

/-- A raw event as pushed by the capture loop: the mask names one
channel and the state bits lie inside the mask. -/
def wfRaw (l : List Event) : Prop :=
  ∀ e ∈ l, (e.mask = 1 ∨ e.mask = 2) ∧ e.state &&& e.mask = e.state

/-- Lock-step blink relation checked in Manual mode at index i: the
predecessor's low two bits are the two-bit complement of the current
entry's low two bits (lib.rs line 259). -/
def manualRel (l : List Event) (i : Nat) : Prop :=
  (l.getD (i - 1) default).state &&& 3 = bnot8 (l.getD i default).state &&& 3

/-- Alternating blink relation checked in OutOfRange mode at index i:
the current state is neither 0b00 nor 0b11 and the predecessor's low two
bits differ from their own complement (lib.rs lines 263-268). -/
def oorRel (l : List Event) (i : Nat) : Prop :=
  (l.getD i default).state ≠ 0 ∧ (l.getD i default).state ≠ 3 ∧
    (l.getD (i - 1) default).state &&& 3 ≠ bnot8 (l.getD (i - 1) default).state &&& 3

lemma wsub64_self (t : Nat) : wsub64 t t = 0 := by
  unfold wsub64; omega

lemma wsub64_zero (t : Nat) (hb : t < 2 ^ 64) : wsub64 t 0 = t := by
  unfold wsub64; omega

lemma wsub64_fifty (t : Nat) (h50 : 50 ≤ t) (hb : t < 2 ^ 64) :
    wsub64 t 50 = t - 50 := by
  unfold wsub64; omega

lemma lor_absorb (a b : Nat) : a ||| (b ||| a) = b ||| a := by
  rw [Nat.or_comm a (b ||| a), Nat.or_assoc, Nat.or_self]

/-- No two-bit value equals its own two-bit complement. -/
lemma and3_ne_bnot8 (s : Nat) : s &&& 3 ≠ bnot8 s &&& 3 := by
  have h : bnot8 s &&& 3 = (s &&& 3) ^^^ 3 := by
    have h255 : (255 : Nat) &&& 3 = 3 := by decide
    rw [bnot8, Nat.and_xor_distrib_right, h255]
  rw [h]
  have h4 : s &&& 3 < 4 := Nat.lt_succ_of_le Nat.and_le_right
  revert h4
  generalize s &&& 3 = a
  intro h4
  interval_cases a <;> decide

lemma subCheck_true_succ (l : List Event) (k i : Nat) :
    subCheck l true (k + 1) i =
      if (l.getD (i - 1) default).state &&& 3 ≠ bnot8 (l.getD i default).state &&& 3 then
        .error .invalidSubstateManual
      else subCheck l true k (i + 1) := rfl

lemma subCheck_false_succ (l : List Event) (k i : Nat) :
    subCheck l false (k + 1) i =
      if (l.getD i default).state = 0 ∨ (l.getD i default).state = 3 then
        .error .invalidSubstateOutOfRange
      else if (l.getD (i - 1) default).state &&& 3
              = bnot8 (l.getD (i - 1) default).state &&& 3 then
        .error .invalidSubstateOutOfRange
      else subCheck l false k (i + 1) := rfl

lemma subCheck_true_ok_iff (l : List Event) :
    ∀ k i, subCheck l true k i = .ok () ↔ ∀ j, i ≤ j → j < i + k → manualRel l j := by
  intro k
  induction k with
  | zero =>
    intro i
    constructor
    · intro _ j hj1 hj2; omega
    · intro _; rfl
  | succ n ih =>
    intro i
    rw [subCheck_true_succ]
    by_cases hrel : manualRel l i
    · have hcond : ¬((l.getD (i - 1) default).state &&& 3
          ≠ bnot8 (l.getD i default).state &&& 3) := not_not_intro hrel
      rw [if_neg hcond, ih (i + 1)]
      constructor
      · intro h j hj1 hj2
        rcases eq_or_lt_of_le hj1 with rfl | hj
        · exact hrel
        · exact h j (by omega) (by omega)
      · intro h j hj1 hj2
        exact h j (by omega) (by omega)
    · have hcond : (l.getD (i - 1) default).state &&& 3
          ≠ bnot8 (l.getD i default).state &&& 3 := hrel
      rw [if_pos hcond]
      constructor
      · intro h; simp at h
      · intro h; exact absurd (h i le_rfl (by omega)) hrel

lemma subCheck_false_ok_iff (l : List Event) :
    ∀ k i, subCheck l false k i = .ok () ↔ ∀ j, i ≤ j → j < i + k → oorRel l j := by
  intro k
  induction k with
  | zero =>
    intro i
    constructor
    · intro _ j hj1 hj2; omega
    · intro _; rfl
  | succ n ih =>
    intro i
    rw [subCheck_false_succ]
    by_cases h1 : (l.getD i default).state = 0 ∨ (l.getD i default).state = 3
    · rw [if_pos h1]
      constructor
      · intro h; simp at h
      · intro h
        obtain ⟨ha, hb, _⟩ := h i le_rfl (by omega)
        tauto
    · rw [if_neg h1, if_neg (and3_ne_bnot8 _), ih (i + 1)]
      push_neg at h1
      constructor
      · intro h j hj1 hj2
        rcases eq_or_lt_of_le hj1 with rfl | hj
        · exact ⟨h1.1, h1.2, and3_ne_bnot8 _⟩
        · exact h j (by omega) (by omega)
      · intro h j hj1 hj2
        exact h j (by omega) (by omega)

lemma subCheck_true_cases (l : List Event) : ∀ k i,
    subCheck l true k i = .ok () ∨
      subCheck l true k i = .error .invalidSubstateManual := by
  intro k
  induction k with
  | zero => intro i; exact Or.inl rfl
  | succ n ih =>
    intro i
    rw [subCheck_true_succ]
    split
    · exact Or.inr rfl
    · exact ih (i + 1)

lemma subCheck_false_cases (l : List Event) : ∀ k i,
    subCheck l false k i = .ok () ∨
      subCheck l false k i = .error .invalidSubstateOutOfRange := by
  intro k
  induction k with
  | zero => intro i; exact Or.inl rfl
  | succ n ih =>
    intro i
    rw [subCheck_false_succ]
    split
    · exact Or.inr rfl
    · split
      · exact Or.inr rfl
      · exact ih (i + 1)

lemma subCheck_false_error_exists (l : List Event) : ∀ k i,
    subCheck l false k i = .error .invalidSubstateOutOfRange →
    ∃ j, i ≤ j ∧ j < i + k ∧
      ((l.getD j default).state = 0 ∨ (l.getD j default).state = 3) := by
  intro k
  induction k with
  | zero => intro i h; simp [subCheck] at h
  | succ n ih =>
    intro i h
    rw [subCheck_false_succ] at h
    by_cases h1 : (l.getD i default).state = 0 ∨ (l.getD i default).state = 3
    · exact ⟨i, le_rfl, by omega, h1⟩
    · rw [if_neg h1, if_neg (and3_ne_bnot8 _)] at h
      obtain ⟨j, hj1, hj2, hj3⟩ := ih (i + 1) h
      exact ⟨j, by omega, by omega, hj3⟩

lemma classify_eq_of_valid (l : List Event) (h3 : 3 < l.length)
    (hs : (l.getD 0 default).state = 3)
    (he : (l.getD (l.length - 1) default).state = 0) :
    classify l =
      match selectMode (l.getD 1 default).state with
      | .error e => .error e
      | .ok m =>
        match subCheck l (m == CFF3000State.Manual) (l.length - 3) 2 with
        | .error e => .error e
        | .ok _ => .ok m := by
  unfold classify
  rw [if_neg (by omega), if_neg (fun h => h hs), if_neg (fun h => h he),
    if_neg (by omega)]

lemma classify_eq_of_three (l : List Event) (hlen : l.length = 3)
    (hs : (l.getD 0 default).state = 3)
    (he : (l.getD (l.length - 1) default).state = 0) :
    classify l =
      if (l.getD 1 default).state = 2 then .ok .Locked
      else if (l.getD 1 default).state = 1 then .ok .Unlocked
      else .error .invalidState := by
  unfold classify
  rw [if_neg (by omega), if_neg (fun h => h hs), if_neg (fun h => h he),
    if_pos hlen]

lemma selectMode_other (s : Nat) (h0 : s ≠ 0) (h1 : s ≠ 1) (h2 : s ≠ 2) :
    selectMode s = .error .invalidState := by
  match s with
  | 0 => exact absurd rfl h0
  | 1 => exact absurd rfl h1
  | 2 => exact absurd rfl h2
  | n + 3 => rfl

lemma reconRun_length (s offset : Nat) (l : List Event) :
    (reconRun s offset l).length = l.length := by
  induction l generalizing s with
  | nil => rfl
  | cons e rest ih => simp [reconRun, ih]

lemma reconRun_mask (s offset : Nat) (l : List Event) :
    ∀ x ∈ reconRun s offset l, x.mask = 3 := by
  induction l generalizing s with
  | nil => intro x hx; simp [reconRun] at hx
  | cons e rest ih =>
    intro x hx
    simp only [reconRun, List.mem_cons] at hx
    rcases hx with rfl | hx
    · rfl
    · exact ih _ x hx

lemma reconRun_getD (l : List Event) : ∀ (s offset i : Nat), i < l.length →
    (reconRun s offset l).getD i default =
      { mask := 3
        timestamp := wsub64 (l.getD i default).timestamp offset
        state := if (l.getD i default).mask ≠ 3
                 then (l.take (i + 1)).foldl updState s
                 else (l.getD i default).state } := by
  induction l with
  | nil => intro s offset i h; simp at h
  | cons e rest ih =>
    intro s offset i h
    cases i with
    | zero =>
      simp only [reconRun, List.getD_cons_zero, List.take_succ_cons,
        List.take_zero, List.foldl_cons, List.foldl_nil]
      congr 1
      split
      · show (e.state &&& e.mask) ||| updState s e = updState s e
        rw [updState]
        exact lor_absorb _ _
      · rfl
    | succ n =>
      simp only [reconRun, List.getD_cons_succ, List.take_succ_cons,
        List.foldl_cons]
      exact ih (updState s e) offset n (by simpa using h)

lemma mergeRun_id (rest : List Event) : ∀ e : Event,
    List.Chain' (fun a b => a.timestamp + 50 ≤ b.timestamp) (e :: rest) →
    (∀ x ∈ e :: rest, x.timestamp < 2 ^ 64) →
    mergeRun e e rest = e :: rest := by
  induction rest with
  | nil => intro e _ _; rfl
  | cons f rest ih =>
    intro e hchain hb
    have hef : e.timestamp + 50 ≤ f.timestamp := (List.chain'_cons.mp hchain).1
    have hf : f.timestamp < 2 ^ 64 := hb f (by simp)
    have hcond : ¬ (e.timestamp > wsub64 f.timestamp 50) := by
      rw [wsub64_fifty f.timestamp (by omega) hf]; omega
    simp only [mergeRun]
    rw [if_neg hcond]
    congr 1
    exact ih f (List.chain'_cons.mp hchain).2 (fun x hx => hb x (by simp [hx]))

lemma reconRun_id (l : List Event) : ∀ s : Nat,
    (∀ x ∈ l, x.mask = 3) → (∀ x ∈ l, x.timestamp < 2 ^ 64) →
    reconRun s 0 l = l := by
  induction l with
  | nil => intro s _ _; rfl
  | cons e rest ih =>
    intro s hmask hb
    obtain ⟨m, t, st⟩ := e
    have hm : m = 3 := hmask ⟨m, t, st⟩ (by simp)
    subst hm
    simp only [reconRun]
    rw [if_neg (fun h => h rfl)]
    rw [wsub64_zero t (hb ⟨3, t, st⟩ (by simp))]
    congr 1
    exact ih _ (fun x hx => hmask x (by simp [hx])) (fun x hx => hb x (by simp [hx]))

lemma mergeRun_bounds (rest : List Event) : ∀ prev c : Event,
    c.mask < 4 → c.state < 4 → (∀ e ∈ rest, e.mask < 4 ∧ e.state < 4) →
    ∀ x ∈ mergeRun prev c rest, x.mask < 4 ∧ x.state < 4 := by
  induction rest with
  | nil =>
    intro prev c hm hs _ x hx
    simp only [mergeRun, List.mem_singleton] at hx
    subst hx
    exact ⟨hm, hs⟩
  | cons e rest ih =>
    intro prev c hm hs hr x hx
    have he : e.mask < 4 ∧ e.state < 4 := hr e (by simp)
    simp only [mergeRun] at hx
    split at hx
    · refine ih e (mergeOne c e) ?_ ?_ (fun y hy => hr y (by simp [hy])) x hx
      · exact (show (mergeOne c e).mask < 2 ^ 2 from Nat.or_lt_two_pow hm he.1)
      · calc (mergeOne c e).state
            ≤ c.state ||| (e.state &&& e.mask) := Nat.and_le_left
          _ < 2 ^ 2 := Nat.or_lt_two_pow hs (lt_of_le_of_lt Nat.and_le_right he.1)
    · rcases List.mem_cons.mp hx with rfl | hx2
      · exact ⟨hm, hs⟩
      · exact ih e e he.1 he.2 (fun y hy => hr y (by simp [hy])) x hx2

lemma reconRun_state_lt (l : List Event) : ∀ s offset : Nat, s < 4 →
    (∀ e ∈ l, e.mask < 4 ∧ e.state < 4) →
    ∀ x ∈ reconRun s offset l, x.state < 4 := by
  induction l with
  | nil => intro s offset _ _ x hx; simp [reconRun] at hx
  | cons e rest ih =>
    intro s offset hs hl x hx
    have he := hl e (by simp)
    have hs2 : updState s e < 4 := by
      unfold updState
      exact (show _ < 2 ^ 2 from Nat.or_lt_two_pow
        (lt_of_le_of_lt Nat.and_le_left hs)
        (lt_of_le_of_lt Nat.and_le_right he.1))
    simp only [reconRun, List.mem_cons] at hx
    rcases hx with rfl | hx
    · dsimp only
      split
      · exact (show _ < 2 ^ 2 from Nat.or_lt_two_pow
          (lt_of_le_of_lt Nat.and_le_right he.1) hs2)
      · exact he.2
    · exact ih (updState s e) offset hs2 (fun y hy => hl y (by simp [hy])) x hx

instance (l : List Event) (i : Nat) : Decidable (manualRel l i) :=
  inferInstanceAs (Decidable
    ((l.getD (i - 1) default).state &&& 3 = bnot8 (l.getD i default).state &&& 3))

instance (l : List Event) (i : Nat) : Decidable (oorRel l i) :=
  inferInstanceAs (Decidable
    ((l.getD i default).state ≠ 0 ∧ (l.getD i default).state ≠ 3 ∧
      (l.getD (i - 1) default).state &&& 3
        ≠ bnot8 (l.getD (i - 1) default).state &&& 3))

lemma selectMode_cases (s : Nat) :
    selectMode s = .ok .Manual ∨ selectMode s = .ok .OutOfRange ∨
      selectMode s = .error .invalidState := by
  match s with
  | 0 => exact Or.inl rfl
  | 1 => exact Or.inr (Or.inl rfl)
  | 2 => exact Or.inr (Or.inl rfl)
  | n + 3 => exact Or.inr (Or.inr rfl)

lemma classify_manual_modeEq (l : List Event) (h3 : 3 < l.length)
    (hs : (l.getD 0 default).state = 3)
    (he : (l.getD (l.length - 1) default).state = 0)
    (h0 : (l.getD 1 default).state = 0) :
    classify l =
      match subCheck l true (l.length - 3) 2 with
      | Except.error e => Except.error e
      | Except.ok _ => Except.ok CFF3000State.Manual := by
  rw [classify_eq_of_valid l h3 hs he, h0]
  rfl

lemma classify_oor_modeEq (l : List Event) (h3 : 3 < l.length)
    (hs : (l.getD 0 default).state = 3)
    (he : (l.getD (l.length - 1) default).state = 0)
    (h1 : (l.getD 1 default).state = 1 ∨ (l.getD 1 default).state = 2) :
    classify l =
      match subCheck l false (l.length - 3) 2 with
      | Except.error e => Except.error e
      | Except.ok _ => Except.ok CFF3000State.OutOfRange := by
  rw [classify_eq_of_valid l h3 hs he]
  rcases h1 with h1 | h1 <;> rw [h1] <;> rfl

lemma classify_invalid_modeEq (l : List Event) (h3 : 3 < l.length)
    (hs : (l.getD 0 default).state = 3)
    (he : (l.getD (l.length - 1) default).state = 0)
    (h0 : (l.getD 1 default).state ≠ 0) (h1 : (l.getD 1 default).state ≠ 1)
    (h2 : (l.getD 1 default).state ≠ 2) :
    classify l = .error .invalidState := by
  rw [classify_eq_of_valid l h3 hs he, selectMode_other _ h0 h1 h2]

/-- C1: the spec claims that for every pair of consecutive raw events on
different channels with timestamp delta strictly below 50 ms the
coalescer merges them, in particular that RED rising at t = 0 and GREEN
rising at t = 10 coalesce into the single entry with t = 0 and state
0b11.  The code compares against eventlog-i-timestamp minus 50 computed
with wrapping u64 subtraction, which for a timestamp below 50 wraps to a
huge value (and overflows with a panic in debug builds), so the merge
condition is false, two separate entries are produced contrary to the
in-code comment about combining events within 50 ms, and the classifier
then reports insufficient events. -/
theorem c1_merge_window_underflow :
    coalesce [redEvent true 0, greenEvent true 10]
        = some [⟨3, 0, 1⟩, ⟨3, 10, 3⟩] ∧
    coalesce [redEvent true 0, greenEvent true 10] ≠ some [⟨3, 0, 3⟩] ∧
    state [redEvent true 0, greenEvent true 10]
        = some (Except.error DecodeError.insufficientEvents) := by
  refine ⟨rfl, ?_, rfl⟩
  decide

/-- C2: structural validation runs first and fails fast in a fixed
order: fewer than three coalesced entries yield insufficientEvents, then
a first state other than 0b11 yields invalidStart, then a last state
other than 0b00 yields invalidEnd, and only sequences passing all three
checks reach the classification outcomes. -/
theorem c2_structural_validation (l : List Event) :
    (l.length < 3 → classify l = .error .insufficientEvents) ∧
    (3 ≤ l.length → (l.getD 0 default).state ≠ 3 →
      classify l = .error .invalidStart) ∧
    (3 ≤ l.length → (l.getD 0 default).state = 3 →
      (l.getD (l.length - 1) default).state ≠ 0 →
      classify l = .error .invalidEnd) ∧
    (3 ≤ l.length → (l.getD 0 default).state = 3 →
      (l.getD (l.length - 1) default).state = 0 →
      classify l ∈ [Except.ok CFF3000State.Locked, .ok .Unlocked, .ok .Manual,
        .ok .OutOfRange, .error .invalidState, .error .invalidSubstateManual,
        .error .invalidSubstateOutOfRange]) := by
  refine ⟨?_, ?_, ?_, ?_⟩
  · intro h
    unfold classify
    rw [if_pos (show l.length ≤ 2 by omega)]
  · intro h hne
    unfold classify
    rw [if_neg (show ¬ (l.length ≤ 2) by omega), if_pos hne]
  · intro h hs hne
    have c2 : ¬ ((l.getD 0 default).state ≠ 3) := fun hh => hh hs
    unfold classify
    rw [if_neg (show ¬ (l.length ≤ 2) by omega), if_neg c2, if_pos hne]
  · intro h hs he
    by_cases h3 : l.length = 3
    · rw [classify_eq_of_three l h3 hs he]
      split
      · simp
      · split
        · simp
        · simp
    · rw [classify_eq_of_valid l (by omega) hs he]
      rcases selectMode_cases (l.getD 1 default).state with hm | hm | hm <;> rw [hm]
      · change (match subCheck l true (l.length - 3) 2 with
          | Except.error e => Except.error e
          | Except.ok _ => Except.ok CFF3000State.Manual) ∈ _
        rcases subCheck_true_cases l (l.length - 3) 2 with hc | hc <;> rw [hc] <;> simp
      · change (match subCheck l false (l.length - 3) 2 with
          | Except.error e => Except.error e
          | Except.ok _ => Except.ok CFF3000State.OutOfRange) ∈ _
        rcases subCheck_false_cases l (l.length - 3) 2 with hc | hc <;> rw [hc] <;> simp
      · simp

/-- C2 witness: the three structural failures at concrete inputs. -/
theorem c2_structural_validation_witness :
    classify [⟨3, 0, 3⟩] = .error .insufficientEvents ∧
    classify [⟨3, 0, 1⟩, ⟨3, 50, 2⟩, ⟨3, 100, 0⟩] = .error .invalidStart ∧
    classify [⟨3, 0, 3⟩, ⟨3, 50, 2⟩, ⟨3, 100, 1⟩] = .error .invalidEnd :=
  ⟨(c2_structural_validation [⟨3, 0, 3⟩]).1 (by decide),
   (c2_structural_validation [⟨3, 0, 1⟩, ⟨3, 50, 2⟩, ⟨3, 100, 0⟩]).2.1
     (by decide) (by decide),
   (c2_structural_validation [⟨3, 0, 3⟩, ⟨3, 50, 2⟩, ⟨3, 100, 1⟩]).2.2.1
     (by decide) (by decide) (by decide)⟩

/-- C3: on a structurally valid coalesced sequence of exactly three
entries, the middle state 0b10 gives Locked, 0b01 gives Unlocked, and
anything else gives the invalidState error. -/
theorem c3_three_entry_classification (l : List Event) (hlen : l.length = 3)
    (hs : (l.getD 0 default).state = 3)
    (he : (l.getD (l.length - 1) default).state = 0) :
    ((l.getD 1 default).state = 2 → classify l = .ok .Locked) ∧
    ((l.getD 1 default).state = 1 → classify l = .ok .Unlocked) ∧
    ((l.getD 1 default).state ≠ 2 → (l.getD 1 default).state ≠ 1 →
      classify l = .error .invalidState) := by
  rw [classify_eq_of_three l hlen hs he]
  refine ⟨?_, ?_, ?_⟩
  · intro h2; rw [if_pos h2]
  · intro h1
    rw [if_neg (show ¬ ((l.getD 1 default).state = 2) by omega), if_pos h1]
  · intro h2 h1; rw [if_neg h2, if_neg h1]

/-- C3 witness: the Locked scenario from the spec. -/
theorem c3_three_entry_classification_witness :
    classify [⟨3, 0, 3⟩, ⟨3, 2000, 2⟩, ⟨3, 2050, 0⟩] = .ok .Locked :=
  (c3_three_entry_classification [⟨3, 0, 3⟩, ⟨3, 2000, 2⟩, ⟨3, 2050, 0⟩]
    (by decide) (by decide) (by decide)).1 (by decide)

/-- C4: for a structurally valid coalesced sequence of more than three
entries, the entry at index 1 fully determines the mode: state 0b00
selects Manual, 0b01 or 0b10 selects OutOfRange, and any other value
yields the invalidState error. -/
theorem c4_mode_selection (l : List Event) (h3 : 3 < l.length)
    (hs : (l.getD 0 default).state = 3)
    (he : (l.getD (l.length - 1) default).state = 0) :
    ((l.getD 1 default).state = 0 →
      classify l = .ok .Manual ∨
        classify l = .error .invalidSubstateManual) ∧
    (((l.getD 1 default).state = 1 ∨ (l.getD 1 default).state = 2) →
      classify l = .ok .OutOfRange ∨
        classify l = .error .invalidSubstateOutOfRange) ∧
    ((l.getD 1 default).state ≠ 0 → (l.getD 1 default).state ≠ 1 →
      (l.getD 1 default).state ≠ 2 →
      classify l = .error .invalidState) := by
  refine ⟨?_, ?_, ?_⟩
  · intro h0
    rw [classify_manual_modeEq l h3 hs he h0]
    rcases subCheck_true_cases l (l.length - 3) 2 with hc | hc <;> rw [hc]
    · exact Or.inl rfl
    · exact Or.inr rfl
  · intro h1
    rw [classify_oor_modeEq l h3 hs he h1]
    rcases subCheck_false_cases l (l.length - 3) 2 with hc | hc <;> rw [hc]
    · exact Or.inl rfl
    · exact Or.inr rfl
  · exact classify_invalid_modeEq l h3 hs he

/-- C4 witness: a four-entry sequence whose index-1 state is 0b00 is
classified in Manual mode. -/
theorem c4_mode_selection_witness :
    classify [⟨3, 0, 3⟩, ⟨3, 500, 0⟩, ⟨3, 1000, 3⟩, ⟨3, 1500, 0⟩]
        = .ok .Manual ∨
    classify [⟨3, 0, 3⟩, ⟨3, 500, 0⟩, ⟨3, 1000, 3⟩, ⟨3, 1500, 0⟩]
        = .error .invalidSubstateManual :=
  (c4_mode_selection [⟨3, 0, 3⟩, ⟨3, 500, 0⟩, ⟨3, 1000, 3⟩, ⟨3, 1500, 0⟩]
    (by decide) (by decide) (by decide)).1 (by decide)

/-- C5: in Manual mode the walk over indices 2 to n - 2 succeeds exactly
when every entry's predecessor carries the two-bit complement of the
entry's low two bits, and any violation gives the manual-variant
invalidSubstate error. -/
theorem c5_manual_walk (l : List Event) (h3 : 3 < l.length)
    (hs : (l.getD 0 default).state = 3)
    (he : (l.getD (l.length - 1) default).state = 0)
    (h0 : (l.getD 1 default).state = 0) :
    (classify l = .ok .Manual ↔
      ∀ i, 2 ≤ i → i ≤ l.length - 2 → manualRel l i) ∧
    ((∃ i, 2 ≤ i ∧ i ≤ l.length - 2 ∧ ¬ manualRel l i) →
      classify l = .error .invalidSubstateManual) := by
  have hmode := classify_manual_modeEq l h3 hs he h0
  have hiff := subCheck_true_ok_iff l (l.length - 3) 2
  constructor
  · rw [hmode]
    constructor
    · intro h i hi1 hi2
      rcases subCheck_true_cases l (l.length - 3) 2 with hc | hc
      · exact hiff.mp hc i hi1 (by omega)
      · rw [hc] at h; simp at h
    · intro hall
      have hok : subCheck l true (l.length - 3) 2 = .ok () :=
        hiff.mpr (fun j hj1 hj2 => hall j hj1 (by omega))
      rw [hok]
  · rintro ⟨i, hi1, hi2, hrel⟩
    rw [hmode]
    have hno : ¬ (subCheck l true (l.length - 3) 2 = .ok ()) := by
      rw [hiff]
      push_neg
      exact ⟨i, hi1, by omega, hrel⟩
    rcases subCheck_true_cases l (l.length - 3) 2 with hc | hc
    · exact absurd hc hno
    · rw [hc]

/-- C5 witness: the Manual scenario from the spec. -/
theorem c5_manual_walk_witness :
    classify [⟨3, 0, 3⟩, ⟨3, 500, 0⟩, ⟨3, 1000, 3⟩, ⟨3, 1500, 0⟩]
      = .ok .Manual :=
  (c5_manual_walk [⟨3, 0, 3⟩, ⟨3, 500, 0⟩, ⟨3, 1000, 3⟩, ⟨3, 1500, 0⟩]
    (by decide) (by decide) (by decide) (by decide)).1.mpr (by
      intro i hi1 hi2
      simp only [List.length_cons, List.length_nil] at hi2
      have hi : i = 2 := by omega
      subst hi
      decide)

/-- C6: in OutOfRange mode the walk over indices 2 to n - 2 succeeds
exactly when every entry's state is neither 0b00 nor 0b11 and no
predecessor's low two bits equal their own complement, and any violation
gives the out-of-range-variant invalidSubstate error. -/
theorem c6_out_of_range_walk (l : List Event) (h3 : 3 < l.length)
    (hs : (l.getD 0 default).state = 3)
    (he : (l.getD (l.length - 1) default).state = 0)
    (h1 : (l.getD 1 default).state = 1 ∨ (l.getD 1 default).state = 2) :
    (classify l = .ok .OutOfRange ↔
      ∀ i, 2 ≤ i → i ≤ l.length - 2 → oorRel l i) ∧
    ((∃ i, 2 ≤ i ∧ i ≤ l.length - 2 ∧ ¬ oorRel l i) →
      classify l = .error .invalidSubstateOutOfRange) := by
  have hmode := classify_oor_modeEq l h3 hs he h1
  have hiff := subCheck_false_ok_iff l (l.length - 3) 2
  constructor
  · rw [hmode]
    constructor
    · intro h i hi1 hi2
      rcases subCheck_false_cases l (l.length - 3) 2 with hc | hc
      · exact hiff.mp hc i hi1 (by omega)
      · rw [hc] at h; simp at h
    · intro hall
      have hok : subCheck l false (l.length - 3) 2 = .ok () :=
        hiff.mpr (fun j hj1 hj2 => hall j hj1 (by omega))
      rw [hok]
  · rintro ⟨i, hi1, hi2, hrel⟩
    rw [hmode]
    have hno : ¬ (subCheck l false (l.length - 3) 2 = .ok ()) := by
      rw [hiff]
      push_neg
      exact ⟨i, hi1, by omega, hrel⟩
    rcases subCheck_false_cases l (l.length - 3) 2 with hc | hc
    · exact absurd hc hno
    · rw [hc]

/-- C6 witness: the OutOfRange scenario from the spec. -/
theorem c6_out_of_range_walk_witness :
    classify [⟨3, 0, 3⟩, ⟨3, 500, 1⟩, ⟨3, 1000, 2⟩, ⟨3, 1500, 1⟩, ⟨3, 2000, 0⟩]
      = .ok .OutOfRange :=
  (c6_out_of_range_walk
    [⟨3, 0, 3⟩, ⟨3, 500, 1⟩, ⟨3, 1000, 2⟩, ⟨3, 1500, 1⟩, ⟨3, 2000, 0⟩]
    (by decide) (by decide) (by decide) (Or.inl (by decide))).1.mpr (by
      intro i hi1 hi2
      simp only [List.length_cons, List.length_nil] at hi2
      have hi : i = 2 ∨ i = 3 := by omega
      rcases hi with rfl | rfl <;> decide)

/-- C7: after the reconstruction pass every entry's mask is 0b11, the
first relative timestamp is 0, every entry whose merge-pass mask covered
a single channel carries the running known state, and every timestamp is
the wrapped difference to the first entry's timestamp. -/
theorem c7_reconstruction_invariants (l : List Event) :
    (reconstruct l).length = l.length ∧
    (∀ e ∈ reconstruct l, e.mask = 3) ∧
    ((reconstruct l).getD 0 default).timestamp = 0 ∧
    (∀ i, i < l.length → (l.getD i default).mask ≠ 3 →
      ((reconstruct l).getD i default).state = knownAfter l i) ∧
    (∀ i, i < l.length →
      ((reconstruct l).getD i default).timestamp
        = wsub64 (l.getD i default).timestamp (l.getD 0 default).timestamp) := by
  refine ⟨reconRun_length _ _ _, reconRun_mask _ _ _, ?_, ?_, ?_⟩
  · cases l with
    | nil => rfl
    | cons e rest =>
      have h := reconRun_getD (e :: rest) 0
        ((e :: rest).getD 0 default).timestamp 0 (by simp)
      rw [reconstruct, h]
      exact wsub64_self _
  · intro i hi hmask
    have h := reconRun_getD l 0 (l.getD 0 default).timestamp i hi
    rw [reconstruct, h]
    dsimp only
    rw [if_pos hmask]
    rfl
  · intro i hi
    have h := reconRun_getD l 0 (l.getD 0 default).timestamp i hi
    rw [reconstruct, h]

/-- C7 witness: a partial-mask entry is filled from the running known
state. -/
theorem c7_reconstruction_invariants_witness :
    ((reconstruct [⟨1, 100, 1⟩, ⟨2, 160, 2⟩]).getD 1 default).state
      = knownAfter [⟨1, 100, 1⟩, ⟨2, 160, 2⟩] 1 :=
  (c7_reconstruction_invariants [⟨1, 100, 1⟩, ⟨2, 160, 2⟩]).2.2.2.1 1
    (by decide) (by decide)

/-- C8: the coalescer is idempotent on an already-resolved sequence: all
masks 0b11, consecutive gaps of at least 50 ms, first timestamp 0 (and
timestamps inside the u64 range) reproduce the identical sequence. -/
theorem c8_coalesce_idempotent (l : List Event) (hne : l ≠ [])
    (hmask : ∀ e ∈ l, e.mask = 3)
    (hchain : List.Chain' (fun a b => a.timestamp + 50 ≤ b.timestamp) l)
    (h0 : (l.getD 0 default).timestamp = 0)
    (hb : ∀ e ∈ l, e.timestamp < 2 ^ 64) :
    coalesce l = some l := by
  cases l with
  | nil => exact absurd rfl hne
  | cons e rest =>
    have hmerge : mergeRun e e rest = e :: rest := mergeRun_id rest e hchain hb
    have hstep : coalesce (e :: rest) = some (reconstruct (e :: rest)) := by
      simp [coalesce, mergePass, hmerge]
    rw [hstep]
    have he0 : e.timestamp = 0 := h0
    rw [reconstruct, List.getD_cons_zero, he0]
    rw [reconRun_id (e :: rest) 0 hmask hb]

/-- C8 witness: a concrete resolved three-entry sequence is reproduced. -/
theorem c8_coalesce_idempotent_witness :
    coalesce [⟨3, 0, 3⟩, ⟨3, 100, 1⟩, ⟨3, 200, 0⟩]
      = some [⟨3, 0, 3⟩, ⟨3, 100, 1⟩, ⟨3, 200, 0⟩] :=
  c8_coalesce_idempotent [⟨3, 0, 3⟩, ⟨3, 100, 1⟩, ⟨3, 200, 0⟩]
    (by decide) (by decide)
    (List.chain'_cons.mpr ⟨by decide,
      List.chain'_cons.mpr ⟨by decide, List.chain'_singleton _⟩⟩)
    (by decide) (by decide)

/-- C9: on an empty raw event log the coalescing step indexes element 0
of the empty log and panics instead of returning a decode error, and the
insufficientEvents error is only reachable from a non-empty capture. -/
theorem c9_empty_capture_panics :
    state [] = none ∧
    ∀ raw r, state raw = some r → raw ≠ [] := by
  constructor
  · rfl
  · intro raw r h hemp
    subst hemp
    simp [state, coalesce, mergePass] at h

/-- C9 witness: a one-event capture reaches the insufficientEvents
error, so its log is non-empty. -/
theorem c9_empty_capture_panics_witness :
    ([redEvent true 0] : List Event) ≠ [] :=
  c9_empty_capture_panics.2 [redEvent true 0]
    (Except.error DecodeError.insufficientEvents) rfl

/-- C10: every coalesced entry produced from well-formed raw events has
only its low two bits set, no two-bit value equals its own two-bit
complement, and consequently the out-of-range substate error can only
arise from the both-off or both-on check, never from the
predecessor-equals-own-complement branch. -/
theorem c10_complement_branch_unreachable :
    (∀ raw out, wfRaw raw → coalesce raw = some out →
      ∀ e ∈ out, e.state < 4) ∧
    (∀ s : Nat, s &&& 3 ≠ bnot8 s &&& 3) ∧
    (∀ l k i, subCheck l false k i = .error .invalidSubstateOutOfRange →
      ∃ j, i ≤ j ∧ j < i + k ∧
        ((l.getD j default).state = 0 ∨ (l.getD j default).state = 3)) := by
  refine ⟨?_, and3_ne_bnot8, ?_⟩
  · intro raw out hwf hc e he
    cases raw with
    | nil => simp [coalesce, mergePass] at hc
    | cons r rest =>
      have hbounds : ∀ x ∈ (r :: rest), x.mask < 4 ∧ x.state < 4 := by
        intro x hx
        obtain ⟨hm, hsx⟩ := hwf x hx
        have hmlt : x.mask < 4 := by rcases hm with h | h <;> omega
        refine ⟨hmlt, ?_⟩
        calc x.state = x.state &&& x.mask := hsx.symm
          _ ≤ x.mask := Nat.and_le_right
          _ < 4 := hmlt
      have hout : out = reconstruct (mergeRun r r rest) := by
        simp [coalesce, mergePass] at hc
        exact hc.symm
      subst hout
      have hmb : ∀ x ∈ mergeRun r r rest, x.mask < 4 ∧ x.state < 4 :=
        mergeRun_bounds rest r r (hbounds r (by simp)).1 (hbounds r (by simp)).2
          (fun y hy => hbounds y (by simp [hy]))
      exact reconRun_state_lt (mergeRun r r rest) 0 _ (by omega) hmb e he
  · exact fun l k i h => subCheck_false_error_exists l k i h

/-- C10 witness: an out-of-range substate error always exhibits a
both-off or both-on entry. -/
theorem c10_complement_branch_unreachable_witness :
    ∃ j, 2 ≤ j ∧ j < 3 ∧
      ((([⟨3, 0, 3⟩, ⟨3, 1, 1⟩, ⟨3, 2, 0⟩, ⟨3, 3, 0⟩] : List Event).getD j
          default).state = 0 ∨
       (([⟨3, 0, 3⟩, ⟨3, 1, 1⟩, ⟨3, 2, 0⟩, ⟨3, 3, 0⟩] : List Event).getD j
          default).state = 3) :=
  c10_complement_branch_unreachable.2.2
    [⟨3, 0, 3⟩, ⟨3, 1, 1⟩, ⟨3, 2, 0⟩, ⟨3, 3, 0⟩] 1 2 rfl

end cff3000
